import Mathlib

/-!
Formal model of the golf swing analyzer core
(src/golf_swing_analyzer: app.py, analyzer.py, visualizer.py).

The per-frame analysis loop of app.py (lines 111-150) is embedded as a
pure recursion over the list of decoded frames.  Pixel-level OpenCV
operations (color conversion, inRange, morphology, findContours,
boundingRect) are library calls that reduce each frame to a list of
connected-region bounding boxes; the embedding therefore represents a
decoded frame by that list of bounding boxes, and models everything the
repository source does with them: centroid computation, distance gating,
nearest-candidate selection, boundary classification, and summary
statistics.

Floating point note: the source computes d = np.sqrt(dsq) for an integer
dsq and compares d against the integer thresholds 200 and radius, and
sorts candidate tuples by d.  Since np.sqrt is correctly rounded and the
integer squared distances that occur are spaced far wider than one unit
in the last place of the corresponding doubles, d1 < d2 holds for the
floats exactly when dsq1 < dsq2 holds for the integers, and d > t holds
exactly when dsq > t * t.  The embedding therefore stores exact squared
distances and proves the stated properties about the real square root
Real.sqrt, which agrees with the float comparisons on all reachable
inputs.
-/

namespace GolfSwing

/-- An integer pixel coordinate pair, as used throughout app.py. -/
structure Pt where
  x : Int
  y : Int
deriving DecidableEq, Repr

/-- Squared Euclidean distance, the exact value under the square root in
app.py line 132 and line 139 and analyzer.py line 125. -/
def distSq (p q : Pt) : Int :=
  (p.x - q.x) ^ 2 + (p.y - q.y) ^ 2

/-- A bounding box as returned by cv2.boundingRect: nonnegative integer
origin and extent.  Fields are ints, matching the Python values. -/
structure BBox where
  x : Int
  y : Int
  w : Int
  h : Int
deriving DecidableEq, Repr

/-- Centroid of a bounding box, app.py line 131:
cx, cy = x + w//2, y + h//2.  Python // is floor division, Int.fdiv. -/
def centroid (b : BBox) : Pt :=
  ⟨b.x + Int.fdiv b.w 2, b.y + Int.fdiv b.h 2⟩

/-- The gated candidate list built by app.py lines 128-134: for each
contour bounding box, pair the squared distance from its centroid to the
previous head position with the centroid, keeping only candidates with
d < 200, i.e. squared distance < 40000. -/
def candidatesOf (prev : Pt) (contours : List BBox) : List (Int × Pt) :=
  (contours.map (fun b => (distSq (centroid b) prev, centroid b))).filter
    (fun c => decide (c.1 < 40000))

/-- The order in which Python sorts the candidate tuples (d, (cx, cy)):
lexicographic on distance, then centroid x, then centroid y.  Distances
compare equal exactly when squared distances do (sqrt is injective on
nonnegative reals), so comparing squared distances is faithful. -/
def candLe (a b : Int × Pt) : Bool :=
  if a.1 < b.1 then true
  else if b.1 < a.1 then false
  else if a.2.x < b.2.x then true
  else if b.2.x < a.2.x then false
  else decide (a.2.y ≤ b.2.y)

/-- sorted(candidates)[0] of app.py line 136: the least candidate tuple
under the lexicographic order.  A left fold keeping the earlier element
on ties returns the same tuple value as taking the head of a stable
ascending sort. -/
def pickMin : List (Int × Pt) → Option (Int × Pt)
  | [] => none
  | c :: cs => some (cs.foldl (fun acc d => if candLe acc d then acc else d) c)

/-- One tracker step, app.py lines 126-136: if there are contours, build
the gated candidate list; if any candidate survives, move to the closest
centroid, otherwise keep the previous position. -/
def trackStep (prev : Pt) (contours : List BBox) : Pt :=
  if contours.isEmpty then prev
  else
    match pickMin (candidatesOf prev contours) with
    | none => prev
    | some c => c.2

/-- Boundary classification, app.py lines 139-141:
dist = sqrt of squared distance from the current head position to the
circle center; head_outside = dist > radius.  For a nonnegative radius
this is equivalent to radius * radius < squared distance, which is the
executable form used here; the equivalence with the Real.sqrt form is
the lemma headOutside_iff_sqrt below. -/
def headOutside (pos center : Pt) (radius : Nat) : Bool :=
  decide ((radius : Int) * radius < distSq pos center)

/-- Per-frame output of the analysis loop: the tracked head position and
the boundary flag appended to head_outside_frames.  The annotated image
is modelled separately in the visualizer section. -/
structure FrameResult where
  headPosition : Pt
  isOutside : Bool
deriving DecidableEq, Repr

/-- The analysis loop of app.py lines 111-150 over already-decoded
frames, carrying current_head_pos; the tolerance circle is
(initHead, radius) as set on line 106 (head_circle = (head_initial,
head_circle_radius)). -/
def runPipelineAux (initHead : Pt) (radius : Nat) :
    List (List BBox) → Pt → List FrameResult
  | [], _ => []
  | f :: rest, pos =>
    let pos2 := trackStep pos f
    ⟨pos2, headOutside pos2 initHead radius⟩ ::
      runPipelineAux initHead radius rest pos2

/-- The whole pipeline: current_head_pos starts at head_initial
(app.py line 107). -/
def runPipeline (frames : List (List BBox)) (initHead : Pt) (radius : Nat) :
    List FrameResult :=
  runPipelineAux initHead radius frames initHead

/-- The read loop of app.py lines 112-115 with decoding made explicit:
cap.read either yields a frame (some) or fails (none), and the loop
breaks at the first failure, so frames after it are never processed. -/
def readLoop (initHead : Pt) (radius : Nat) :
    List (Option (List BBox)) → Pt → List FrameResult
  | [], _ => []
  | none :: _, _ => []
  | some f :: rest, pos =>
    let pos2 := trackStep pos f
    ⟨pos2, headOutside pos2 initHead radius⟩ ::
      readLoop initHead radius rest pos2

/-- The frames the read loop actually processes: the longest prefix of
successfully decoded frames. -/
def decodedPart (frames : List (Option (List BBox))) : List (List BBox) :=
  (frames.takeWhile Option.isSome).filterMap id

/-- outside_count of app.py line 170: sum(head_outside_frames), where
the booleans count as 0 or 1. -/
def outsideCount (rs : List FrameResult) : Nat :=
  (rs.map (fun r => if r.isOutside then 1 else 0)).sum

/-- The percentage metric of app.py line 173:
outside_count / len(output_frames) * 100 when the frame list is
nonempty, else 0.  The float division is modelled as exact rational
division. -/
def outsidePercentage (rs : List FrameResult) : ℚ :=
  if rs.isEmpty then 0
  else (outsideCount rs : ℚ) / (rs.length : ℚ) * 100

/-- PoseAnalyzer.head_outside_circle, analyzer.py lines 117-126.  The
Python arguments are tuples that may be None; a falsy argument returns
False before any distance is computed.  For present arguments the source
returns sqrt(dsq) > radius, which (dsq being nonnegative) holds iff the
radius is negative or radius * radius < dsq; that executable form is
used here and related to the Real.sqrt form in
head_outside_circle_some_iff. -/
def head_outside_circle (head_center circle_center : Option Pt)
    (radius : Int) : Bool :=
  match head_center, circle_center with
  | some h, some c => decide (radius < 0 ∨ radius * radius < distSq h c)
  | _, _ => false

lemma distSq_nonneg (p q : Pt) : 0 ≤ distSq p q := by
  have h1 : (0 : Int) ≤ (p.x - q.x) ^ 2 := sq_nonneg _
  have h2 : (0 : Int) ≤ (p.y - q.y) ^ 2 := sq_nonneg _
  unfold distSq
  linarith

/-- Comparing the real square root of a nonnegative integer with a
natural threshold is comparing the integer with the squared threshold. -/
lemma lt_sqrt_int (r : Nat) (n : Int) :
    (r : ℝ) < Real.sqrt (n : ℝ) ↔ (r : Int) * r < n := by
  rw [Real.lt_sqrt (by positivity), pow_two]
  exact_mod_cast Iff.rfl

/-- The executable boundary test agrees with the Real.sqrt formulation
of app.py lines 139-141. -/
lemma headOutside_iff_sqrt (pos center : Pt) (radius : Nat) :
    headOutside pos center radius = true ↔
      (radius : ℝ) < Real.sqrt ((distSq pos center : Int) : ℝ) := by
  rw [headOutside, decide_eq_true_eq, lt_sqrt_int radius _]

/-- Gating, upper side: sqrt(n) < 200 iff n < 40000. -/
lemma sqrt_lt_gate (n : Int) :
    Real.sqrt (n : ℝ) < 200 ↔ n < 40000 := by
  rw [Real.sqrt_lt' (by norm_num)]
  constructor
  · intro h
    exact_mod_cast (by norm_num at h; exact h : (n : ℝ) < 40000)
  · intro h
    norm_num
    exact_mod_cast h

/-- Gating, lower side: 200 ≤ sqrt(n) iff 40000 ≤ n. -/
lemma gate_le_sqrt (n : Int) :
    (200 : ℝ) ≤ Real.sqrt (n : ℝ) ↔ 40000 ≤ n := by
  rw [Real.le_sqrt' (by norm_num)]
  constructor
  · intro h
    exact_mod_cast (by norm_num at h; exact h : (40000 : ℝ) ≤ n)
  · intro h
    norm_num
    exact_mod_cast h

lemma candLe_true_fst {a b : Int × Pt} (h : candLe a b = true) : a.1 ≤ b.1 := by
  unfold candLe at h
  split_ifs at h with h1 h2 h3 h4 <;> omega

lemma candLe_false_fst {a b : Int × Pt} (h : candLe a b = false) : b.1 ≤ a.1 := by
  unfold candLe at h
  split_ifs at h with h1 h2 h3 h4 <;> omega

lemma foldl_pick_mem :
    ∀ (cs : List (Int × Pt)) (c : Int × Pt),
      cs.foldl (fun acc d => if candLe acc d then acc else d) c = c ∨
      cs.foldl (fun acc d => if candLe acc d then acc else d) c ∈ cs := by
  intro cs
  induction cs with
  | nil => intro c; left; rfl
  | cons d cs ih =>
    intro c
    rw [List.foldl_cons]
    rcases ih (if candLe c d then c else d) with h | h
    · rw [h]
      by_cases hc : candLe c d = true
      · left; rw [if_pos hc]
      · right; rw [if_neg hc]; exact List.mem_cons_self _ _
    · right; exact List.mem_cons_of_mem _ h

lemma foldl_pick_le :
    ∀ (cs : List (Int × Pt)) (c : Int × Pt),
      (cs.foldl (fun acc d => if candLe acc d then acc else d) c).1 ≤ c.1 ∧
      ∀ d ∈ cs, (cs.foldl (fun acc d => if candLe acc d then acc else d) c).1 ≤ d.1 := by
  intro cs
  induction cs with
  | nil =>
    intro c
    exact ⟨le_refl _, by simp⟩
  | cons d cs ih =>
    intro c
    rw [List.foldl_cons]
    obtain ⟨h1, h2⟩ := ih (if candLe c d then c else d)
    have hstep : (if candLe c d then c else d).1 ≤ c.1 ∧
        (if candLe c d then c else d).1 ≤ d.1 := by
      by_cases hc : candLe c d = true
      · rw [if_pos hc]
        exact ⟨le_refl _, candLe_true_fst hc⟩
      · have hcf : candLe c d = false := by
          revert hc; cases candLe c d <;> simp
        rw [if_neg hc]
        exact ⟨candLe_false_fst hcf, le_refl _⟩
    refine ⟨h1.trans hstep.1, ?_⟩
    intro e he
    rcases List.mem_cons.mp he with rfl | he2
    · exact h1.trans hstep.2
    · exact h2 e he2

/-- The least candidate tuple returned by pickMin is a member of the
list and its distance component is minimal. -/
lemma pickMin_spec (cs : List (Int × Pt)) (hne : cs ≠ []) :
    ∃ m, pickMin cs = some m ∧ m ∈ cs ∧ ∀ d ∈ cs, m.1 ≤ d.1 := by
  match cs, hne with
  | c :: cs, _ =>
    refine ⟨cs.foldl (fun acc d => if candLe acc d then acc else d) c, rfl, ?_, ?_⟩
    · rcases foldl_pick_mem cs c with h | h
      · rw [h]; exact List.mem_cons_self _ _
      · exact List.mem_cons_of_mem _ h
    · obtain ⟨h1, h2⟩ := foldl_pick_le cs c
      intro d hd
      rcases List.mem_cons.mp hd with rfl | hd2
      · exact h1
      · exact h2 d hd2

/-- Membership in the gated candidate list of app.py lines 128-134. -/
lemma mem_candidatesOf {prev : Pt} {contours : List BBox} {c : Int × Pt} :
    c ∈ candidatesOf prev contours ↔
      (∃ b ∈ contours, c = (distSq (centroid b) prev, centroid b)) ∧ c.1 < 40000 := by
  unfold candidatesOf
  rw [List.mem_filter, List.mem_map]
  constructor
  · rintro ⟨⟨b, hb, hfb⟩, hlt⟩
    rw [decide_eq_true_eq] at hlt
    exact ⟨⟨b, hb, hfb.symm⟩, hlt⟩
  · rintro ⟨⟨b, hb, hcb⟩, hlt⟩
    exact ⟨⟨b, hb, hcb.symm⟩, by rw [decide_eq_true_eq]; exact hlt⟩

lemma trackStep_eq_of_pickMin (prev : Pt) (contours : List BBox) (m : Int × Pt)
    (h : pickMin (candidatesOf prev contours) = some m) (hne : contours ≠ []) :
    trackStep prev contours = m.2 := by
  unfold trackStep
  rw [if_neg (by simpa [List.isEmpty_iff] using hne), h]

/-- Every result produced by the analysis loop carries the boundary
flag computed from its own head position and the fixed circle. -/
lemma runPipelineAux_isOutside (initHead : Pt) (radius : Nat) :
    ∀ (frames : List (List BBox)) (pos : Pt),
      ∀ res ∈ runPipelineAux initHead radius frames pos,
        res.isOutside = headOutside res.headPosition initHead radius := by
  intro frames
  induction frames with
  | nil =>
    intro pos res h
    simp [runPipelineAux] at h
  | cons f rest ih =>
    intro pos res h
    simp only [runPipelineAux, List.mem_cons] at h
    rcases h with rfl | h2
    · rfl
    · exact ih _ res h2

/-- C1: for every frame of a pipeline run, the isOutside flag is true
iff the Euclidean distance from the head position of that frame to the
tolerance circle center (the initial head point, app.py line 106) is
strictly greater than the circle radius; equality means not outside. -/
theorem isOutside_iff_dist_gt_radius (frames : List (List BBox)) (initHead : Pt)
    (radius : Nat) (res : FrameResult)
    (hres : res ∈ runPipeline frames initHead radius) :
    res.isOutside = true ↔
      (radius : ℝ) < Real.sqrt ((distSq res.headPosition initHead : Int) : ℝ) := by
  rw [runPipelineAux_isOutside initHead radius frames initHead res hres,
    headOutside_iff_sqrt]

theorem isOutside_iff_dist_gt_radius_witness :
    (FrameResult.mk ⟨2, 2⟩ false).isOutside = true ↔
      (60 : ℝ) < Real.sqrt ((distSq (Pt.mk 2 2) (Pt.mk 0 0) : Int) : ℝ) :=
  isOutside_iff_dist_gt_radius [[⟨0, 0, 4, 4⟩]] ⟨0, 0⟩ 60 ⟨⟨2, 2⟩, false⟩ (by decide)

/-- C2: if no contour is present, or every candidate centroid lies at
Euclidean distance at least 200 from the previous head position (so no
candidate passes the strict d < 200 gate of app.py line 133), the
tracker keeps the previous position unchanged. -/
theorem tracker_hold_last_known (prev : Pt) (contours : List BBox)
    (hfar : ∀ b ∈ contours,
      (200 : ℝ) ≤ Real.sqrt ((distSq (centroid b) prev : Int) : ℝ)) :
    trackStep prev contours = prev := by
  have hcand : candidatesOf prev contours = [] := by
    unfold candidatesOf
    rw [List.filter_eq_nil_iff]
    intro a ha
    obtain ⟨b, hb, rfl⟩ := List.mem_map.mp ha
    have h40 : (40000 : Int) ≤ distSq (centroid b) prev :=
      (gate_le_sqrt _).mp (hfar b hb)
    rw [decide_eq_true_eq]
    omega
  unfold trackStep
  by_cases he : contours.isEmpty = true
  · rw [if_pos he]
  · rw [if_neg he, hcand]
    rfl

theorem tracker_hold_last_known_witness :
    trackStep ⟨0, 0⟩ [⟨1000, 1000, 0, 0⟩] = Pt.mk 0 0 :=
  tracker_hold_last_known ⟨0, 0⟩ [⟨1000, 1000, 0, 0⟩]
    (by
      intro b hb
      rw [List.mem_singleton] at hb
      subst hb
      exact (gate_le_sqrt _).mpr (by decide))

/-- C7: whenever some candidate centroid lies strictly within the
200-unit gate, the tracker moves to the centroid of a gated candidate
whose Euclidean distance to the previous position is minimal among all
gated candidates; the choice is produced by taking the head of the
ascending sort of app.py line 136, hence deterministic, and is in-gate
regardless of any region sizes. -/
theorem tracker_selects_nearest (prev : Pt) (contours : List BBox)
    (hex : ∃ b ∈ contours,
      Real.sqrt ((distSq (centroid b) prev : Int) : ℝ) < 200) :
    ∃ b0 ∈ contours,
      trackStep prev contours = centroid b0 ∧
      Real.sqrt ((distSq (centroid b0) prev : Int) : ℝ) < 200 ∧
      ∀ b ∈ contours,
        Real.sqrt ((distSq (centroid b) prev : Int) : ℝ) < 200 →
          Real.sqrt ((distSq (centroid b0) prev : Int) : ℝ) ≤
            Real.sqrt ((distSq (centroid b) prev : Int) : ℝ) := by
  obtain ⟨b, hb, hblt⟩ := hex
  have hbsq : distSq (centroid b) prev < 40000 := (sqrt_lt_gate _).mp hblt
  have hmem : (distSq (centroid b) prev, centroid b) ∈ candidatesOf prev contours :=
    mem_candidatesOf.mpr ⟨⟨b, hb, rfl⟩, hbsq⟩
  obtain ⟨m, hpick, hmmem, hmin⟩ := pickMin_spec _ (List.ne_nil_of_mem hmem)
  obtain ⟨⟨b0, hb0, rfl⟩, hm40⟩ := mem_candidatesOf.mp hmmem
  refine ⟨b0, hb0, ?_, ?_, ?_⟩
  · exact trackStep_eq_of_pickMin prev contours _ hpick (List.ne_nil_of_mem hb)
  · rw [sqrt_lt_gate]
    exact hm40
  · intro b2 hb2 hlt2
    have h2sq : distSq (centroid b2) prev < 40000 := (sqrt_lt_gate _).mp hlt2
    have hmem2 : (distSq (centroid b2) prev, centroid b2) ∈ candidatesOf prev contours :=
      mem_candidatesOf.mpr ⟨⟨b2, hb2, rfl⟩, h2sq⟩
    have hle := hmin _ hmem2
    exact Real.sqrt_le_sqrt (by exact_mod_cast hle)

theorem tracker_selects_nearest_witness :
    ∃ b0 ∈ [BBox.mk 0 0 0 0],
      trackStep ⟨0, 0⟩ [BBox.mk 0 0 0 0] = centroid b0 ∧
      Real.sqrt ((distSq (centroid b0) (Pt.mk 0 0) : Int) : ℝ) < 200 ∧
      ∀ b ∈ [BBox.mk 0 0 0 0],
        Real.sqrt ((distSq (centroid b) (Pt.mk 0 0) : Int) : ℝ) < 200 →
          Real.sqrt ((distSq (centroid b0) (Pt.mk 0 0) : Int) : ℝ) ≤
            Real.sqrt ((distSq (centroid b) (Pt.mk 0 0) : Int) : ℝ) :=
  tracker_selects_nearest ⟨0, 0⟩ [⟨0, 0, 0, 0⟩]
    ⟨⟨0, 0, 0, 0⟩, by decide, (sqrt_lt_gate _).mpr (by decide)⟩

/-- C4: the pipeline is a pure function of the frame sequence, the
initial head point and the circle radius: two runs on equal inputs
yield equal FrameResult sequences, hence the same head position and the
same isOutside flag at every index. -/
theorem pipeline_deterministic (frames1 frames2 : List (List BBox))
    (init1 init2 : Pt) (r1 r2 : Nat)
    (hf : frames1 = frames2) (hi : init1 = init2) (hr : r1 = r2) :
    runPipeline frames1 init1 r1 = runPipeline frames2 init2 r2 ∧
    ∀ k, (runPipeline frames1 init1 r1).get? k =
      (runPipeline frames2 init2 r2).get? k := by
  subst hf
  subst hi
  subst hr
  exact ⟨rfl, fun _ => rfl⟩

theorem pipeline_deterministic_witness :
    runPipeline [[⟨0, 0, 4, 4⟩]] ⟨0, 0⟩ 60 = runPipeline [[⟨0, 0, 4, 4⟩]] ⟨0, 0⟩ 60 ∧
    ∀ k, (runPipeline [[⟨0, 0, 4, 4⟩]] ⟨0, 0⟩ 60).get? k =
      (runPipeline [[⟨0, 0, 4, 4⟩]] ⟨0, 0⟩ 60).get? k :=
  pipeline_deterministic _ _ _ _ _ _ rfl rfl rfl

/-- C5: the outside counter of app.py line 170 counts exactly the true
flags, and the percentage of line 173 is count / total * 100, with 0
when there are no frames. -/
theorem summary_consistent (rs : List FrameResult) :
    outsideCount rs = (rs.filter (fun r => r.isOutside)).length ∧
    (rs.length = 0 → outsidePercentage rs = 0) ∧
    (rs.length ≠ 0 →
      outsidePercentage rs = (outsideCount rs : ℚ) / (rs.length : ℚ) * 100) := by
  refine ⟨?_, ?_, ?_⟩
  · induction rs with
    | nil => rfl
    | cons r rs ih =>
      simp only [outsideCount, List.map_cons, List.sum_cons, List.filter_cons] at ih ⊢
      by_cases h : r.isOutside = true
      · rw [if_pos h, if_pos (by exact h), List.length_cons, ih]
        omega
      · rw [if_neg h, if_neg (by exact h), ih]
        omega
  · intro h
    rw [List.length_eq_zero] at h
    subst h
    rfl
  · intro h
    have hne : rs ≠ [] := by
      intro hnil
      exact h (by rw [hnil]; rfl)
    unfold outsidePercentage
    rw [if_neg (by simpa [List.isEmpty_iff] using hne)]

theorem summary_consistent_witness :
    outsidePercentage [⟨⟨0, 0⟩, true⟩, ⟨⟨1, 1⟩, false⟩] =
      (outsideCount [⟨⟨0, 0⟩, true⟩, ⟨⟨1, 1⟩, false⟩] : ℚ) /
        (([⟨⟨0, 0⟩, true⟩, ⟨⟨1, 1⟩, false⟩] : List FrameResult).length : ℚ) * 100 :=
  (summary_consistent [⟨⟨0, 0⟩, true⟩, ⟨⟨1, 1⟩, false⟩]).2.2 (by decide)

/-- C8: every gated candidate consumed by the tracker carries the
centroid (x + w/2, y + h/2) of some contour bounding box, computed with
floor division (Python //, app.py line 131; for the divisor 2 the
integer division written here is floor division), and its stored
distance is the squared distance of that centroid to the previous
position. -/
theorem candidate_centroid_formula (prev : Pt) (contours : List BBox)
    (c : Int × Pt) (hc : c ∈ candidatesOf prev contours) :
    ∃ b ∈ contours,
      c.2 = Pt.mk (b.x + b.w / 2) (b.y + b.h / 2) ∧ c.1 = distSq c.2 prev := by
  obtain ⟨⟨b, hb, rfl⟩, _⟩ := mem_candidatesOf.mp hc
  refine ⟨b, hb, ?_, rfl⟩
  show centroid b = _
  unfold centroid
  rw [Int.fdiv_eq_ediv b.w (by norm_num), Int.fdiv_eq_ediv b.h (by norm_num)]

theorem candidate_centroid_formula_witness :
    ∃ b ∈ [BBox.mk 1 2 5 7],
      ((34 : Int), Pt.mk 3 5).2 = Pt.mk (b.x + b.w / 2) (b.y + b.h / 2) ∧
      ((34 : Int), Pt.mk 3 5).1 = distSq ((34 : Int), Pt.mk 3 5).2 (Pt.mk 0 0) :=
  candidate_centroid_formula ⟨0, 0⟩ [⟨1, 2, 5, 7⟩] (34, ⟨3, 5⟩) (by decide)

/-- C9: head_outside_circle returns False whenever either point
argument is absent (None, the only falsy value of the tuple-or-None
arguments), for any radius; it raises nothing and never classifies such
a call as outside. -/
theorem head_outside_circle_none_false (hc cc : Option Pt) (r : Int) :
    head_outside_circle none cc r = false ∧
    head_outside_circle hc none r = false := by
  constructor
  · cases cc <;> rfl
  · cases hc <;> rfl

/-- For present arguments the embedded head_outside_circle agrees with
the float test dist > radius of analyzer.py lines 125-126. -/
lemma head_outside_circle_some_iff (h c : Pt) (r : Int) :
    head_outside_circle (some h) (some c) r = true ↔
      (r : ℝ) < Real.sqrt ((distSq h c : Int) : ℝ) := by
  show decide (r < 0 ∨ r * r < distSq h c) = true ↔ _
  rw [decide_eq_true_eq]
  by_cases hr : r < 0
  · constructor
    · intro _
      calc (r : ℝ) < 0 := by exact_mod_cast hr
        _ ≤ Real.sqrt ((distSq h c : Int) : ℝ) := Real.sqrt_nonneg _
    · intro _
      exact Or.inl hr
  · push_neg at hr
    rw [Real.lt_sqrt (by exact_mod_cast hr), pow_two]
    constructor
    · rintro (h1 | h1)
      · exact absurd h1 (not_lt.mpr hr)
      · exact_mod_cast h1
    · intro h1
      exact Or.inr (by exact_mod_cast h1)

lemma decodedPart_cons_none (rest : List (Option (List BBox))) :
    decodedPart (none :: rest) = [] := by
  simp [decodedPart, List.takeWhile_cons]

lemma decodedPart_cons_some (f : List BBox) (rest : List (Option (List BBox))) :
    decodedPart (some f :: rest) = f :: decodedPart rest := by
  simp [decodedPart, List.takeWhile_cons]

/-- C6 amended: the analysis loop never raises, but it stops at the
first frame whose decode fails (app.py lines 113-115): the results are
exactly the pipeline run on the longest prefix of decodable frames, and
frames at or after the first failed decode yield no FrameResult. -/
theorem read_loop_processes_decoded_prefix (initHead : Pt) (radius : Nat) :
    ∀ (frames : List (Option (List BBox))) (pos : Pt),
      readLoop initHead radius frames pos =
        runPipelineAux initHead radius (decodedPart frames) pos := by
  intro frames
  induction frames with
  | nil =>
    intro pos
    rfl
  | cons f rest ih =>
    intro pos
    cases f with
    | none =>
      rw [decodedPart_cons_none]
      rfl
    | some l =>
      rw [decodedPart_cons_some]
      simp only [readLoop, runPipelineAux]
      rw [ih]

/-- C6 counterexample: a three-frame input whose middle frame fails to
decode produces one FrameResult, not one per input frame, so a single
corrupt frame does not degrade via hold-last-known for the rest of the
run: processing simply stops. -/
theorem corrupt_frame_aborts_remainder :
    ¬ ((readLoop ⟨0, 0⟩ 60 [some [], none, some []] ⟨0, 0⟩).length =
        ([some [], none, some []] : List (Option (List BBox))).length) := by
  decide

/-!
Visualizer model (src/golf_swing_analyzer/visualizer.py).

The drawing primitives are OpenCV library calls; they are modelled at
the pixel level: a frame is a total map from integer pixel coordinates
to BGR colors, a line paints the integer points of the segment, a
circle outline paints a thin ring, a filled circle paints a disk, and
glyph rasterization of the status caption is not modelled (it touches
only pixels near the fixed caption anchor (10, 30) and no claim depends
on them).  What matters for the claims is the data flow of
process_video_frame, visualizer.py lines 72-94, which is taken from the
source: each helper receives the same frame buffer, no copy is ever
made, and cv2 drawing writes into the array it is given.  Consequently
the content of the array the caller passed in equals, after the call,
the composed drawn frame returned here.
-/

/-- A BGR pixel color. -/
structure Color where
  b : Int
  g : Int
  r : Int
deriving DecidableEq, Repr

/-- A frame as a total pixel map. -/
def Frame : Type := Pt → Color

/-- Integer points of the segment from a to b (model of cv2.line
rasterization: collinear and within the bounding rectangle). -/
def onSegment (a b p : Pt) : Bool :=
  decide ((p.x - a.x) * (b.y - a.y) = (p.y - a.y) * (b.x - a.x)) &&
  decide (min a.x b.x ≤ p.x) && decide (p.x ≤ max a.x b.x) &&
  decide (min a.y b.y ≤ p.y) && decide (p.y ≤ max a.y b.y)

/-- cv2.line with thickness 2: paints the segment into the given
buffer. -/
def cvLine (f : Frame) (a b : Pt) (c : Color) : Frame :=
  fun p => if onSegment a b p then c else f p

/-- cv2.circle with positive thickness: paints a thin ring around the
circle of the given radius. -/
def cvCircleOutline (f : Frame) (center : Pt) (radius : Int) (c : Color) : Frame :=
  fun p =>
    if radius * radius ≤ distSq p center ∧
        distSq p center ≤ (radius + 2) * (radius + 2) then c
    else f p

/-- cv2.circle with thickness -1: paints the filled disk. -/
def cvCircleFilled (f : Frame) (center : Pt) (radius : Int) (c : Color) : Frame :=
  fun p => if distSq p center ≤ radius * radius then c else f p

/-- cv2.putText: glyph rasterization is not modelled (see the section
comment); the buffer is returned as passed. -/
def cvPutText (f : Frame) : Frame := f

/-- draw_spine_line, visualizer.py lines 7-22: draws the line when the
spine argument is present (truthy). -/
def draw_spine_line (f : Frame) (spine : Option (Pt × Pt)) (color : Color) : Frame :=
  match spine with
  | none => f
  | some (p1, p2) => cvLine f p1 p2 color

/-- draw_head_circle, visualizer.py lines 25-40. -/
def draw_head_circle (f : Frame) (circle : Option (Pt × Int)) (color : Color) : Frame :=
  match circle with
  | none => f
  | some (c, r) => cvCircleOutline f c r color

/-- draw_head_point, visualizer.py lines 43-57: a filled marker of
radius 5. -/
def draw_head_point (f : Frame) (pos : Option Pt) (color : Color) : Frame :=
  match pos with
  | none => f
  | some p => cvCircleFilled f p 5 color

/-- draw_status_text, visualizer.py lines 60-69. -/
def draw_status_text (f : Frame) : Frame := cvPutText f

/-- process_video_frame, visualizer.py lines 72-94: spine line in
green, circle red when outside else green, head marker yellow, status
caption.  Every helper draws into the same buffer; no copy is made
anywhere in the function, so this composed frame is both the returned
value and the content of the array the caller passed in, once the call
returns. -/
def process_video_frame (f : Frame) (spine : Option (Pt × Pt))
    (circle : Option (Pt × Int)) (headPos : Option Pt) (headOut : Bool) : Frame :=
  let f1 := draw_spine_line f spine ⟨0, 255, 0⟩
  let f2 := draw_head_circle f1 circle
    (if headOut then ⟨0, 0, 255⟩ else ⟨0, 255, 0⟩)
  let f3 := draw_head_point f2 headPos ⟨0, 255, 255⟩
  draw_status_text f3

/-- An all-black frame. -/
def blackFrame : Frame := fun _ => ⟨0, 0, 0⟩

/-- C3 counterexample: on an all-black frame, with the head marker at
(500, 500), the pixel buffer the caller passed holds the annotated
image after the call (no copy is taken in visualizer.py lines 72-94),
and its pixel at (500, 500) is now the yellow marker color, so the
original frame content is not preserved. -/
theorem annotator_mutates_input :
    process_video_frame blackFrame (some (⟨0, 0⟩, ⟨0, 10⟩))
        (some (⟨500, 500⟩, 60)) (some ⟨500, 500⟩) false ≠ blackFrame := by
  intro h
  have hp := congrFun h ⟨500, 500⟩
  exact absurd hp (by decide)

/-- C3 amended: the annotator draws in place, so the input buffer is
mutated rather than copied; what does hold is determinism: two calls on
pixel-identical inputs produce pixel-identical annotated output. -/
theorem annotator_deterministic (f1 f2 : Frame) (spine : Option (Pt × Pt))
    (circle : Option (Pt × Int)) (headPos : Option Pt) (headOut : Bool)
    (h : f1 = f2) :
    process_video_frame f1 spine circle headPos headOut =
      process_video_frame f2 spine circle headPos headOut := by
  subst h
  rfl

theorem annotator_deterministic_witness :
    process_video_frame blackFrame none none none false =
      process_video_frame blackFrame none none none false :=
  annotator_deterministic blackFrame blackFrame none none none false rfl

/-!
PoseAnalyzer.get_key_points model (src/golf_swing_analyzer/analyzer.py,
lines 44-84).  cv2.boundingRect and cv2.contourArea are library calls;
a contour is modelled as carrying its bounding box and its area.
Python sorted is a stable sort; it is modelled by a stable insertion
sort.  The Python local variable boxes is assigned only inside the
branch guarded by len(contours) > 0; the fallback at line 80 evaluates
len(boxes) whenever no head was found, which raises UnboundLocalError
when the contour list was empty.  That exceptional outcome is modelled
as an error result.
-/

/-- A face rectangle as returned by detectMultiScale. -/
structure Face where
  x : Int
  y : Int
  w : Int
  h : Int
deriving DecidableEq, Repr

/-- A contour reduced to its bounding box and area (the two attributes
analyzer.py reads through cv2.boundingRect and cv2.contourArea). -/
structure Contour where
  box : BBox
  area : Int
deriving DecidableEq, Repr

/-- Insert before the first element that compares greater-or-equal,
keeping earlier elements first on ties. -/
def insertS {α : Type} (le : α → α → Bool) (x : α) : List α → List α
  | [] => [x]
  | y :: ys => if le x y then x :: y :: ys else y :: insertS le x ys

/-- Stable sort modelling Python sorted: ascending under le, equal keys
keep their original order. -/
def sortStable {α : Type} (le : α → α → Bool) : List α → List α
  | [] => []
  | x :: xs => insertS le x (sortStable le xs)

/-- The key-point record built by get_key_points; absent entries are
keys the Python dict does not contain. -/
structure KeyPoints where
  head : Option Pt
  left_shoulder : Option Pt
  right_shoulder : Option Pt
  left_hip : Option Pt
  right_hip : Option Pt
deriving DecidableEq, Repr

/-- PoseAnalyzer.get_key_points, analyzer.py lines 44-84.  Faces are
sorted by area descending (stable, reverse=True) and the largest gives
the head; contours are sorted by area descending, the five largest are
reduced to bounding boxes, which are sorted by y; the middle box gives
the shoulders when more than one box exists and the last box gives the
hips when more than two exist.  When no face gave a head, line 80 reads
boxes: if the contour branch never ran that local is unassigned and
Python raises UnboundLocalError, modelled here as an error result;
otherwise the first box may supply the head. -/
def get_key_points (faces : List Face) (contours : List Contour) :
    Except String KeyPoints :=
  let head0 : Option Pt :=
    if 0 < faces.length then
      match sortStable (fun a b => decide (b.w * b.h ≤ a.w * a.h)) faces with
      | f :: _ => some ⟨f.x + Int.fdiv f.w 2, f.y + Int.fdiv f.h 2⟩
      | [] => none
    else none
  let boxes : Option (List BBox) :=
    if 0 < contours.length then
      some (sortStable (fun a b => decide (a.y ≤ b.y))
        (((sortStable (fun a b => decide (b.area ≤ a.area)) contours).take 5).map
          Contour.box))
    else none
  let shoulders : Option (Pt × Pt) :=
    match boxes with
    | some bs =>
      if 1 < bs.length then
        match bs.get? (bs.length / 2) with
        | some b =>
          some (⟨b.x, b.y + Int.fdiv b.h 2⟩, ⟨b.x + b.w, b.y + Int.fdiv b.h 2⟩)
        | none => none
      else none
    | none => none
  let hips : Option (Pt × Pt) :=
    match boxes with
    | some bs =>
      if 2 < bs.length then
        match bs.getLast? with
        | some b => some (⟨b.x, b.y + b.h⟩, ⟨b.x + b.w, b.y + b.h⟩)
        | none => none
      else none
    | none => none
  match head0 with
  | some hd =>
    Except.ok ⟨some hd, shoulders.map Prod.fst, shoulders.map Prod.snd,
      hips.map Prod.fst, hips.map Prod.snd⟩
  | none =>
    match boxes with
    | none => Except.error "UnboundLocalError: boxes referenced before assignment"
    | some [] =>
      Except.ok ⟨none, shoulders.map Prod.fst, shoulders.map Prod.snd,
        hips.map Prod.fst, hips.map Prod.snd⟩
    | some (b :: _) =>
      Except.ok ⟨some ⟨b.x + Int.fdiv b.w 2, b.y + Int.fdiv b.h 2⟩,
        shoulders.map Prod.fst, shoulders.map Prod.snd,
        hips.map Prod.fst, hips.map Prod.snd⟩

/-- C10: at the input with no detected face and an empty contour list,
get_key_points does not return a key-point record: the source reads the
unassigned local boxes at line 80 and raises UnboundLocalError. -/
theorem get_key_points_raises_on_empty :
    get_key_points [] [] =
      Except.error "UnboundLocalError: boxes referenced before assignment" := rfl

/-- With a nonempty contour list and no face, the fallback path
succeeds: the top box supplies the head. -/
lemma get_key_points_ok_contour_only :
    get_key_points [] [⟨⟨0, 0, 2, 2⟩, 4⟩] =
      Except.ok ⟨some ⟨1, 1⟩, none, none, none, none⟩ := rfl

/-- With a face and no contours, the face supplies the head and nothing
is raised. -/
lemma get_key_points_ok_face_only :
    get_key_points [⟨10, 10, 4, 4⟩] [] =
      Except.ok ⟨some ⟨12, 12⟩, none, none, none, none⟩ := rfl

end GolfSwing
